import Mathlib

/-!
Verification of the chunker repository (MP3 / WAV / raw audio chunkers).

Bytes are modelled as natural numbers (every byte delivered by the Go
runtime is a uint8, so concrete streams use values below 256; the bit-mask
field extractions are well defined for every natural number).  Streams are
finite byte lists; a reader is the remaining suffix of its stream, and
io.ReadFull is modelled by readFull below.  Loops that consume at least one
byte per iteration are embedded structurally with a fuel argument that the
top-level wrapper instantiates with more fuel than the stream has bytes, so
the out-of-fuel branch is unreachable.
-/

/-! ## MP3 frame header codec (mp3chunk.go, frameLength) -/

def maxReservoir : Nat := 511

def bitratesMPEG1 : List Nat :=
  [0, 32, 40, 48, 56, 64, 80, 96, 112, 128, 160, 192, 224, 256, 320, 0]

def bitratesMPEG2 : List Nat :=
  [0, 8, 16, 24, 32, 40, 48, 56, 64, 80, 96, 112, 128, 144, 160, 0]

def sampleRatesMPEG1 : List Nat := [44100, 48000, 32000, 0]

def sampleRatesMPEG2 : List Nat := [22050, 24000, 16000, 0]

def sampleRatesMPEG25 : List Nat := [11025, 12000, 8000, 0]

/-- Embedding of frameLength (mp3chunk.go).  Returns none where the Go
function returns ErrInvalidFrame. -/
def frameLength : List Nat → Option Nat
  | [b0, b1, b2, b3] =>
    if b0 ≠ 0xff ∨ b1 &&& 0xe0 ≠ 0xe0 then none
    else
      let mpegVer := (b1 >>> 3) &&& 0x03
      let layer := (b1 >>> 1) &&& 0x03
      if mpegVer = 1 ∨ layer ≠ 1 then none
      else
        let bitRateIdx := (b2 >>> 4) &&& 0x0f
        if bitRateIdx = 0 ∨ bitRateIdx = 0x0f then none
        else
          let sampleRateIdx := (b2 >>> 2) &&& 0x03
          if sampleRateIdx = 3 then none
          else
            let emphasis := b3 &&& 0x03
            if emphasis = 2 then none
            else
              let bitrates := if mpegVer = 3 then bitratesMPEG1 else bitratesMPEG2
              let sampleRates :=
                if mpegVer = 3 then sampleRatesMPEG1
                else if mpegVer = 0 then sampleRatesMPEG25 else sampleRatesMPEG2
              let multiplier := if mpegVer = 3 then 144 else 72
              let padding := (b2 >>> 1) &&& 0x01
              let bitRate := bitrates.getD bitRateIdx 0 * 1000
              let sampleRate := sampleRates.getD sampleRateIdx 0
              if bitRate = 0 ∨ sampleRate = 0 then none
              else some (multiplier * bitRate / sampleRate + padding)
  | _ => none

/-- The malformed-header conditions listed by the specification, stated on
the four header bytes. -/
def headerMalformed (b0 b1 b2 b3 : Nat) : Prop :=
  b0 ≠ 0xff ∨ b1 &&& 0xe0 ≠ 0xe0 ∨ (b1 >>> 3) &&& 0x03 = 1 ∨
  (b1 >>> 1) &&& 0x03 ≠ 1 ∨ (b2 >>> 4) &&& 0x0f = 0 ∨
  (b2 >>> 4) &&& 0x0f = 15 ∨ (b2 >>> 2) &&& 0x03 = 3 ∨ b3 &&& 0x03 = 2

instance (b0 b1 b2 b3 : Nat) : Decidable (headerMalformed b0 b1 b2 b3) := by
  unfold headerMalformed; infer_instance

/-- The specification's frame-length formula:
multiplier * bitrateTable[idx] * 1000 / sampleRateTable[idx] + padding,
with the tables and multiplier selected by the version bits. -/
def specFrameLength (b1 b2 : Nat) : Nat :=
  let ver := (b1 >>> 3) &&& 0x03
  let bitRateIdx := (b2 >>> 4) &&& 0x0f
  let sampleRateIdx := (b2 >>> 2) &&& 0x03
  let padding := (b2 >>> 1) &&& 0x01
  let multiplier := if ver = 3 then 144 else 72
  let bTable := if ver = 3 then bitratesMPEG1 else bitratesMPEG2
  let sTable :=
    if ver = 3 then sampleRatesMPEG1
    else if ver = 0 then sampleRatesMPEG25 else sampleRatesMPEG2
  multiplier * bTable.getD bitRateIdx 0 * 1000 / sTable.getD sampleRateIdx 0 + padding

set_option maxRecDepth 8000 in
lemma frameLength_characterization (b0 b1 b2 b3 : Nat) :
    frameLength [b0, b1, b2, b3] =
      if headerMalformed b0 b1 b2 b3 then none else some (specFrameLength b1 b2) := by
  have hver : (b1 >>> 3) &&& 0x03 ≤ 3 := Nat.and_le_right
  have hlay : (b1 >>> 1) &&& 0x03 ≤ 3 := Nat.and_le_right
  have hbit : (b2 >>> 4) &&& 0x0f ≤ 15 := Nat.and_le_right
  have hsr : (b2 >>> 2) &&& 0x03 ≤ 3 := Nat.and_le_right
  by_cases h1 : b0 ≠ 0xff ∨ b1 &&& 0xe0 ≠ 0xe0
  · have hm : headerMalformed b0 b1 b2 b3 := by unfold headerMalformed; tauto
    simp [frameLength, h1, hm]
  · by_cases h2 : (b1 >>> 3) &&& 0x03 = 1 ∨ (b1 >>> 1) &&& 0x03 ≠ 1
    · have hm : headerMalformed b0 b1 b2 b3 := by unfold headerMalformed; tauto
      simp only [frameLength, if_neg h1, if_pos h2, if_pos hm]
    · by_cases h3 : (b2 >>> 4) &&& 0x0f = 0 ∨ (b2 >>> 4) &&& 0x0f = 0x0f
      · have hm : headerMalformed b0 b1 b2 b3 := by unfold headerMalformed; tauto
        simp only [frameLength, if_neg h1, if_neg h2, if_pos h3, if_pos hm]
      · by_cases h4 : (b2 >>> 2) &&& 0x03 = 3
        · have hm : headerMalformed b0 b1 b2 b3 := by unfold headerMalformed; tauto
          simp only [frameLength, if_neg h1, if_neg h2, if_neg h3, if_pos h4, if_pos hm]
        · by_cases h5 : b3 &&& 0x03 = 2
          · have hm : headerMalformed b0 b1 b2 b3 := by unfold headerMalformed; tauto
            simp only [frameLength, if_neg h1, if_neg h2, if_neg h3, if_neg h4,
              if_pos h5, if_pos hm]
          · have hm : ¬ headerMalformed b0 b1 b2 b3 := by unfold headerMalformed; tauto
            simp only [frameLength, if_neg h1, if_neg h2, if_neg h3, if_neg h4,
              if_neg h5, if_neg hm, specFrameLength]
            rw [not_or] at h2 h3
            obtain ⟨h2a, h2b⟩ := h2
            obtain ⟨h3a, h3b⟩ := h3
            clear h1 h2b hm h5 hlay
            generalize hV : (b1 >>> 3) &&& 0x03 = v at h2a hver ⊢
            generalize hI : (b2 >>> 4) &&& 0x0f = i at h3a h3b hbit ⊢
            generalize hJ : (b2 >>> 2) &&& 0x03 = j at h4 hsr ⊢
            clear hV hI hJ
            interval_cases v <;> interval_cases i <;> interval_cases j <;>
              first
                | omega
                | norm_num [bitratesMPEG1, bitratesMPEG2, sampleRatesMPEG1,
                    sampleRatesMPEG2, sampleRatesMPEG25, Nat.mul_assoc]

/-- C1: frameLength rejects exactly the malformed headers the spec lists,
and on every accepted header returns the spec's formula
multiplier * bitrateTable[idx] * 1000 / sampleRateTable[idx] + padding. -/
theorem c1_frameLength_spec (b0 b1 b2 b3 : Nat) :
    (frameLength [b0, b1, b2, b3] = none ↔ headerMalformed b0 b1 b2 b3) ∧
    (¬ headerMalformed b0 b1 b2 b3 →
      frameLength [b0, b1, b2, b3] = some (specFrameLength b1 b2)) := by
  constructor
  · rw [frameLength_characterization]
    by_cases hm : headerMalformed b0 b1 b2 b3 <;> simp [hm]
  · intro hm
    rw [frameLength_characterization, if_neg hm]

/-- C1 witness: a concrete accepted header (MPEG-1 Layer III, 320 kbps,
32 kHz, no padding) has frame length 1440. -/
theorem c1_witness :
    ¬ headerMalformed 0xff 0xfb 0xe8 0x00 ∧
      frameLength [0xff, 0xfb, 0xe8, 0x00] = some 1440 := by
  refine ⟨by decide, ?_⟩
  have h := (c1_frameLength_spec 0xff 0xfb 0xe8 0x00).2 (by decide)
  simpa using h

/-! ## Little-endian 32-bit codec and byte-copy primitive (wav.go) -/

/-- Embedding of writeUint32LE (wav.go): four little-endian bytes of the
low 32 bits of the value. -/
def writeUint32LE (v : Nat) : List Nat :=
  [v % 256, v >>> 8 % 256, v >>> 16 % 256, v >>> 24 % 256]

/-- Conversion int64 to uint32 as Go performs it (low 32 bits, two's
complement for negatives), feeding writeUint32LE. -/
def writeUint32LEI (v : Int) : List Nat :=
  writeUint32LE (v % (4294967296 : Int)).toNat

/-- Embedding of readUint32LE (wav.go).  The Go function ors the shifted
bytes; on uint8 inputs that equals this weighted sum. -/
def readUint32LE (data : List Nat) : Nat :=
  data.getD 0 0 + data.getD 1 0 * 256 + data.getD 2 0 * 65536 +
    data.getD 3 0 * 16777216

/-- Go's copy of src over dst starting at index i (copy stops at the end
of dst). -/
def copyInto (dst : List Nat) (i : Nat) (src : List Nat) : List Nat :=
  dst.take i ++ src.take (dst.length - i) ++ dst.drop (i + src.length)

/-- The n bytes of l starting at index i. -/
def byteSlice (l : List Nat) (i n : Nat) : List Nat :=
  (l.drop i).take n

lemma copyInto_eq_of_le (dst src : List Nat) (i : Nat)
    (h : i + src.length ≤ dst.length) :
    copyInto dst i src = dst.take i ++ src ++ dst.drop (i + src.length) := by
  have hs : src.take (dst.length - i) = src := List.take_of_length_le (by omega)
  unfold copyInto
  rw [hs]

lemma copyInto_length (dst src : List Nat) (i : Nat)
    (h : i + src.length ≤ dst.length) :
    (copyInto dst i src).length = dst.length := by
  rw [copyInto_eq_of_le dst src i h]
  simp only [List.length_append, List.length_take, List.length_drop]
  omega

lemma copyInto_append_left (a b src : List Nat) (i : Nat)
    (h : i + src.length ≤ a.length) :
    copyInto (a ++ b) i src = copyInto a i src ++ b := by
  rw [copyInto_eq_of_le _ src i (by simp; omega), copyInto_eq_of_le a src i h]
  rw [List.take_append_of_le_length (by omega),
    List.drop_append_of_le_length (by omega)]
  simp [List.append_assoc]

lemma copyInto_exact_suffix (a b src : List Nat)
    (h : src.length = b.length) :
    copyInto (a ++ b) a.length src = a ++ src := by
  rw [copyInto_eq_of_le _ src _ (by simp [h]), List.take_left]
  have h2 : a.length + src.length = (a ++ b).length := by simp [h]
  rw [h2, List.drop_length, List.append_nil]

lemma byteSlice_copyInto_self (dst src : List Nat) (i : Nat)
    (h : i + src.length ≤ dst.length) :
    byteSlice (copyInto dst i src) i src.length = src := by
  rw [copyInto_eq_of_le dst src i h]
  unfold byteSlice
  rw [List.append_assoc, List.drop_append_of_le_length (by simp; omega)]
  have h1 : (dst.take i).drop i = [] := by
    rw [List.drop_eq_nil_iff]; simp
  rw [h1, List.nil_append, List.take_append_of_le_length (by simp),
    List.take_of_length_le (by simp)]

lemma byteSlice_copyInto_right (dst src : List Nat) (i j n : Nat)
    (h : i + src.length ≤ dst.length) (hj : i + src.length ≤ j) :
    byteSlice (copyInto dst i src) j n = byteSlice dst j n := by
  rw [copyInto_eq_of_le dst src i h]
  unfold byteSlice
  have hlen : (dst.take i ++ src).length = i + src.length := by simp; omega
  rw [List.drop_append_eq_append_drop]
  have h0 : (dst.take i ++ src).drop j = [] := by
    rw [List.drop_eq_nil_iff]; simp; omega
  rw [h0, List.nil_append, hlen, List.drop_drop]
  congr 2
  omega

lemma byteSlice_append_left (a b : List Nat) (j n : Nat)
    (h : j + n ≤ a.length) :
    byteSlice (a ++ b) j n = byteSlice a j n := by
  unfold byteSlice
  rw [List.drop_append_of_le_length (by omega),
    List.take_append_of_le_length (by simp; omega)]

lemma readUint32LE_writeUint32LE (v : Nat) :
    readUint32LE (writeUint32LE v) = v % 4294967296 := by
  simp only [readUint32LE, writeUint32LE, List.getD]
  simp only [Nat.shiftRight_eq_div_pow]
  norm_num
  omega

/-! ## WAV chunker (wav.go): constants, header parse, complete-file build -/

def defaultChunkSize : Nat := 8192

def maxChunkSize : Nat := 1024 * 1024

def maxHeaderSize : Nat := 8388608

def minChunkSize : Nat := 1024

def riffID : List Nat := [0x52, 0x49, 0x46, 0x46]

def waveID : List Nat := [0x57, 0x41, 0x56, 0x45]

def dataID : List Nat := [0x64, 0x61, 0x74, 0x61]

/-- Result of io.ReadFull on a list-modelled reader: all n bytes, or EOF
with nothing read, or ErrUnexpectedEOF after a partial read. -/
inductive RFRes
  | ok (bytes rest : List Nat)
  | eof
  | unexpectedEof
deriving DecidableEq

def readFull (n : Nat) (s : List Nat) : RFRes :=
  if n ≤ s.length then .ok (s.take n) (s.drop n)
  else if s.isEmpty then .eof
  else .unexpectedEof

inductive WErr
  | eof
  | unexpectedEof
  | badRiff
  | badWave
  | headerTooLarge
  | chunkTooLarge
deriving DecidableEq

structure WAVHeaderOut where
  header : List Nat
  dataSize : Nat
  rest : List Nat
deriving DecidableEq

inductive ParseRes
  | ok (o : WAVHeaderOut)
  | err (e : WErr)
deriving DecidableEq

/-- The chunk-walking loop of parseWAVHeader (wav.go).  Each iteration
consumes at least 8 bytes of input, so fuel larger than the input length
never runs out; the fuel-0 branch is unreachable from parseWAVHeader. -/
def parseChunksF : Nat → List Nat → List Nat → ParseRes
  | 0, _, _ => .err .eof
  | fuel + 1, input, hdr =>
    if maxHeaderSize < hdr.length then .err .headerTooLarge
    else
      match readFull 8 input with
      | .eof => .err .eof
      | .unexpectedEof => .err .unexpectedEof
      | .ok ch rest =>
        let chunkSize := readUint32LE (ch.drop 4)
        let hdr1 := hdr ++ ch
        if ch.take 4 = dataID then .ok ⟨hdr1, chunkSize, rest⟩
        else if maxChunkSize < chunkSize then .err .chunkTooLarge
        else
          match readFull chunkSize rest with
          | .eof => .err .eof
          | .unexpectedEof => .err .unexpectedEof
          | .ok chunkData rest1 =>
            let hdr2 := hdr1 ++ chunkData
            if chunkSize % 2 = 1 then
              match readFull 1 rest1 with
              | .ok p rest2 => parseChunksF fuel rest2 (hdr2 ++ p)
              | _ => parseChunksF fuel rest1 hdr2
            else parseChunksF fuel rest1 hdr2

/-- Embedding of parseWAVHeader (wav.go): RIFF prologue then chunk walk. -/
def parseWAVHeader (input : List Nat) : ParseRes :=
  match readFull 12 input with
  | .eof => .err .eof
  | .unexpectedEof => .err .unexpectedEof
  | .ok riffHeader rest =>
    if riffHeader.take 4 ≠ riffID then .err .badRiff
    else if (riffHeader.drop 8).take 4 ≠ waveID then .err .badWave
    else parseChunksF (rest.length + 1) rest riffHeader

/-- Embedding of createCompleteWAVFile (wav.go).  Returns none when
audioData is empty, as the source does. -/
def createCompleteWAVFile (header : List Nat) (dataSizeOffset : Nat)
    (audioData : List Nat) : Option (List Nat) :=
  if audioData.isEmpty then none
  else
    let totalLen := header.length + audioData.length
    let base := header ++ List.replicate audioData.length 0
    let r1 := copyInto base dataSizeOffset (writeUint32LE audioData.length)
    let r2 := copyInto r1 4 (writeUint32LEI ((totalLen : Int) - 8))
    let r3 := copyInto r2 header.length audioData
    some r3

lemma writeUint32LE_length (v : Nat) : (writeUint32LE v).length = 4 := rfl

lemma writeUint32LEI_length (v : Int) : (writeUint32LEI v).length = 4 := rfl

lemma createCompleteWAVFile_eq (header audio : List Nat) (dso : Nat)
    (h1 : dso + 4 = header.length) (h2 : 12 ≤ header.length)
    (hne : audio ≠ []) :
    createCompleteWAVFile header dso audio =
      some (copyInto (copyInto header dso (writeUint32LE audio.length)) 4
        (writeUint32LEI ((header.length : Int) + (audio.length : Int) - 8)) ++ audio) := by
  unfold createCompleteWAVFile
  rw [if_neg (by simpa using hne)]
  have hrep : (List.replicate audio.length (0 : Nat)).length = audio.length := by simp
  have e1 : copyInto (header ++ List.replicate audio.length 0) dso (writeUint32LE audio.length)
      = copyInto header dso (writeUint32LE audio.length) ++ List.replicate audio.length 0 :=
    copyInto_append_left _ _ _ _ (by rw [writeUint32LE_length]; omega)
  have hX : (copyInto header dso (writeUint32LE audio.length)).length = header.length :=
    copyInto_length _ _ _ (by rw [writeUint32LE_length]; omega)
  have e2 : copyInto (copyInto header dso (writeUint32LE audio.length) ++
        List.replicate audio.length 0) 4
        (writeUint32LEI ((header.length + audio.length : Nat) - 8 : Int))
      = copyInto (copyInto header dso (writeUint32LE audio.length)) 4
          (writeUint32LEI ((header.length + audio.length : Nat) - 8 : Int)) ++
          List.replicate audio.length 0 :=
    copyInto_append_left _ _ _ _ (by rw [writeUint32LEI_length]; omega)
  have hY : (copyInto (copyInto header dso (writeUint32LE audio.length)) 4
      (writeUint32LEI ((header.length + audio.length : Nat) - 8 : Int))).length
      = header.length := by
    rw [copyInto_length _ _ _ (by rw [writeUint32LEI_length]; omega), hX]
  simp only [e1, e2]
  have e3 := copyInto_exact_suffix
    (copyInto (copyInto header dso (writeUint32LE audio.length)) 4
      (writeUint32LEI ((header.length + audio.length : Nat) - 8 : Int)))
    (List.replicate audio.length 0) audio (by simp)
  rw [hY] at e3
  rw [e3]
  have hcast : ((header.length + audio.length : Nat) : Int) - 8 =
      (header.length : Int) + (audio.length : Int) - 8 := by push_cast; ring
  rw [hcast]

lemma readUint32LE_writeUint32LEI (v : Int) (hv : 0 ≤ v) :
    readUint32LE (writeUint32LEI v) = v.toNat % 4294967296 := by
  unfold writeUint32LEI
  rw [readUint32LE_writeUint32LE]
  omega

lemma readFull_ok_iff (n : Nat) (s b r : List Nat) :
    readFull n s = .ok b r ↔ n ≤ s.length ∧ b = s.take n ∧ r = s.drop n := by
  unfold readFull
  split_ifs with h1 h2 <;> constructor <;> intro h
  · cases h; exact ⟨h1, rfl, rfl⟩
  · obtain ⟨-, rfl, rfl⟩ := h; rfl
  · cases h
  · omega
  · cases h
  · omega

lemma builtChunk_length (header audio w2 : List Nat) (dso : Nat)
    (h1 : dso + 4 = header.length) (hw2 : w2.length = 4)
    (h2 : 12 ≤ header.length) :
    (copyInto (copyInto header dso (writeUint32LE audio.length)) 4 w2 ++ audio).length
      = header.length + audio.length := by
  have hX : (copyInto header dso (writeUint32LE audio.length)).length = header.length :=
    copyInto_length _ _ _ (by rw [writeUint32LE_length]; omega)
  have hY : (copyInto (copyInto header dso (writeUint32LE audio.length)) 4 w2).length
      = header.length := by
    rw [copyInto_length _ _ _ (by rw [hw2]; omega), hX]
  simp [hY]

lemma builtChunk_dataSize_field (header audio w2 : List Nat) (dso : Nat)
    (h1 : dso + 4 = header.length) (hw2 : w2.length = 4)
    (h2 : 12 ≤ header.length) :
    byteSlice (copyInto (copyInto header dso (writeUint32LE audio.length)) 4 w2 ++ audio)
      dso 4 = writeUint32LE audio.length := by
  have hX : (copyInto header dso (writeUint32LE audio.length)).length = header.length :=
    copyInto_length _ _ _ (by rw [writeUint32LE_length]; omega)
  have hY : (copyInto (copyInto header dso (writeUint32LE audio.length)) 4 w2).length
      = header.length := by
    rw [copyInto_length _ _ _ (by rw [hw2]; omega), hX]
  rw [byteSlice_append_left _ _ _ _ (by omega)]
  rw [byteSlice_copyInto_right _ _ _ _ _ (by rw [hw2]; omega) (by rw [hw2]; omega)]
  have h4 : (4 : Nat) = (writeUint32LE audio.length).length := by
    rw [writeUint32LE_length]
  rw [h4]
  exact byteSlice_copyInto_self _ _ _ (by rw [writeUint32LE_length]; omega)

lemma builtChunk_riffSize_field (header audio w2 : List Nat) (dso : Nat)
    (h1 : dso + 4 = header.length) (hw2 : w2.length = 4)
    (h2 : 12 ≤ header.length) :
    byteSlice (copyInto (copyInto header dso (writeUint32LE audio.length)) 4 w2 ++ audio)
      4 4 = w2 := by
  have hX : (copyInto header dso (writeUint32LE audio.length)).length = header.length :=
    copyInto_length _ _ _ (by rw [writeUint32LE_length]; omega)
  have hY : (copyInto (copyInto header dso (writeUint32LE audio.length)) 4 w2).length
      = header.length := by
    rw [copyInto_length _ _ _ (by rw [hw2]; omega), hX]
  rw [byteSlice_append_left _ _ _ _ (by omega)]
  have h4 : byteSlice (copyInto (copyInto header dso (writeUint32LE audio.length)) 4 w2) 4
      w2.length = w2 :=
    byteSlice_copyInto_self _ _ _ (by rw [hX]; omega)
  rw [hw2] at h4
  exact h4

/-! ## WAV chunker state machine (wav.go, WAVChunker.Next) -/

structure WAVSt where
  stream : List Nat
  targetSize : Nat
  err : Option WErr
  headerSent : Bool
  header : List Nat
  dataStart : Nat
  bytesRead : Nat
  dataSize : Nat
  dataSizeOffset : Nat
deriving DecidableEq

structure WAVOut where
  chunk : Option (List Nat)
  error : Option WErr
deriving DecidableEq

/-- The read-size computation of WAVChunker.Next (wav.go, complete mode):
target minus header length, the 1 KiB floor when that is not positive,
then capped to the remaining declared audio bytes. -/
def completeReadSize (targetSize headerLen : Nat) (audioDataLeft : Int) : Int :=
  let readSize : Int := (targetSize : Int) - (headerLen : Int)
  let readSize : Int := if readSize ≤ 0 then (minChunkSize : Int) else readSize
  if readSize > audioDataLeft then audioDataLeft else readSize

/-- The audio phase of WAVChunker.Next (wav.go), entered once the header
has been parsed. -/
def wavNextBody (st : WAVSt) : WAVOut × WAVSt :=
  let audioDataLeft : Int :=
    (st.dataSize : Int) - ((st.bytesRead : Int) - (st.dataStart : Int))
  if audioDataLeft ≤ 0 then
    let st1 := if st.dataSize % 2 = 1 then { st with stream := st.stream.drop 1 } else st
    (⟨none, some WErr.eof⟩, st1)
  else
    let readSize := (completeReadSize st.targetSize st.header.length audioDataLeft).toNat
    match readFull readSize st.stream with
    | .unexpectedEof =>
      (⟨none, some WErr.unexpectedEof⟩,
        { st with err := some WErr.unexpectedEof, stream := [] })
    | .eof =>
      (⟨createCompleteWAVFile st.header st.dataSizeOffset [], none⟩,
        { st with err := some WErr.eof })
    | .ok bytes rest =>
      (⟨createCompleteWAVFile st.header st.dataSizeOffset bytes, none⟩,
        { st with stream := rest, bytesRead := st.bytesRead + bytes.length })

/-- Embedding of WAVChunker.Next (wav.go): latched error, first-call header
parse, then the audio phase. -/
def wavNext (st : WAVSt) : WAVOut × WAVSt :=
  match st.err with
  | some e => (⟨none, some e⟩, st)
  | none =>
    if st.headerSent then wavNextBody st
    else
      match parseWAVHeader st.stream with
      | .err e => (⟨none, some e⟩, { st with err := some e })
      | .ok o =>
        wavNextBody
          { st with
              headerSent := true
              header := o.header
              dataSize := o.dataSize
              dataStart := o.header.length
              dataSizeOffset := o.header.length - 4
              bytesRead := o.header.length
              stream := o.rest }

/-- The constructor NewWAVChunker (wav.go) fixes the 8192-byte target. -/
def newWAVChunker (stream : List Nat) : WAVSt :=
  ⟨stream, defaultChunkSize, none, false, [], 0, 0, 0, 0⟩

lemma completeReadSize_pos (t h : Nat) (a : Int) (ha : 0 < a) :
    0 < completeReadSize t h a := by
  unfold completeReadSize
  simp only [minChunkSize]
  split_ifs <;> omega

lemma createCompleteWAVFile_nil (header : List Nat) (dso : Nat) :
    createCompleteWAVFile header dso [] = none := by
  simp [createCompleteWAVFile]

lemma wavNextBody_ok (st : WAVSt) (c : List Nat) (st' : WAVSt)
    (h : wavNextBody st = (⟨some c, none⟩, st')) :
    ∃ bytes rest,
      readFull ((completeReadSize st.targetSize st.header.length
          ((st.dataSize : Int) - ((st.bytesRead : Int) - (st.dataStart : Int)))).toNat)
        st.stream = .ok bytes rest ∧
      0 < (st.dataSize : Int) - ((st.bytesRead : Int) - (st.dataStart : Int)) ∧
      createCompleteWAVFile st.header st.dataSizeOffset bytes = some c := by
  simp only [wavNextBody] at h
  split at h
  · simp at h
  · next hal =>
    split at h
    · simp at h
    · rw [createCompleteWAVFile_nil] at h
      simp at h
    · rename_i bytes rest heq
      exact ⟨bytes, rest, heq, by omega, by
        have := congrArg (fun p => p.1.chunk) h
        simpa using this⟩

/-- C2: in complete mode every successful pull emits the stored header with
its data-size field (at the recorded offset) overwritten by the audio slice
length and its RIFF size field (offset 4) overwritten by header+slice-8,
followed by the slice; the decoded fields match those lengths. -/
theorem c2_complete_chunk_structure (st : WAVSt) (c : List Nat) (st' : WAVSt)
    (hsent : st.headerSent = true)
    (hdso : st.dataSizeOffset + 4 = st.header.length)
    (hhl : 12 ≤ st.header.length)
    (hs32 : st.stream.length < 4294967296)
    (hh32 : st.header.length + st.stream.length < 4294967296)
    (h : wavNext st = (⟨some c, none⟩, st')) :
    ∃ audio, audio ≠ [] ∧ audio.length ≤ st.stream.length ∧
      c = copyInto (copyInto st.header st.dataSizeOffset (writeUint32LE audio.length)) 4
          (writeUint32LEI ((st.header.length : Int) + (audio.length : Int) - 8)) ++ audio ∧
      c.length = st.header.length + audio.length ∧
      readUint32LE (byteSlice c st.dataSizeOffset 4) = audio.length ∧
      readUint32LE (byteSlice c 4 4) = st.header.length + audio.length - 8 := by
  unfold wavNext at h
  cases herr : st.err with
  | some e => rw [herr] at h; simp at h
  | none =>
    rw [herr, hsent] at h
    simp only [if_pos] at h
    obtain ⟨bytes, rest, hrf, hal, hcr⟩ := wavNextBody_ok st c st' h
    rw [readFull_ok_iff] at hrf
    obtain ⟨hle, hby, -⟩ := hrf
    have hne : bytes ≠ [] := by
      intro hbe
      rw [hbe, createCompleteWAVFile_nil] at hcr
      exact Option.noConfusion hcr
    rw [createCompleteWAVFile_eq st.header bytes st.dataSizeOffset hdso hhl hne] at hcr
    have hc := Option.some.inj hcr
    have hblen : bytes.length ≤ st.stream.length := by
      rw [hby]; simp
    refine ⟨bytes, hne, hblen, hc.symm, ?_, ?_, ?_⟩
    · rw [← hc]
      exact builtChunk_length st.header bytes _ st.dataSizeOffset hdso
        (writeUint32LEI_length _) hhl
    · rw [← hc,
        builtChunk_dataSize_field st.header bytes _ st.dataSizeOffset hdso
          (writeUint32LEI_length _) hhl,
        readUint32LE_writeUint32LE]
      omega
    · rw [← hc,
        builtChunk_riffSize_field st.header bytes _ st.dataSizeOffset hdso
          (writeUint32LEI_length _) hhl,
        readUint32LE_writeUint32LEI _ (by omega)]
      omega

def c2St : WAVSt :=
  ⟨List.replicate 100 9, 8192, none, true, List.replicate 44 3, 44, 44, 100, 40⟩

def c2StAfter : WAVSt :=
  ⟨[], 8192, none, true, List.replicate 44 3, 44, 144, 100, 40⟩

def c2Chunk : List Nat :=
  copyInto (copyInto (List.replicate 44 3) 40 (writeUint32LE 100)) 4
    (writeUint32LEI ((44 : Int) + (100 : Int) - 8)) ++ List.replicate 100 9

set_option maxRecDepth 100000 in
/-- C2 witness: the structure theorem applied to a concrete pull over a
44-byte header and 100 audio bytes. -/
theorem c2_witness :
    ∃ audio, audio ≠ [] ∧ audio.length ≤ c2St.stream.length ∧
      c2Chunk = copyInto (copyInto c2St.header c2St.dataSizeOffset
          (writeUint32LE audio.length)) 4
          (writeUint32LEI ((c2St.header.length : Int) + (audio.length : Int) - 8)) ++ audio ∧
      c2Chunk.length = c2St.header.length + audio.length ∧
      readUint32LE (byteSlice c2Chunk c2St.dataSizeOffset 4) = audio.length ∧
      readUint32LE (byteSlice c2Chunk 4 4) = c2St.header.length + audio.length - 8 :=
  c2_complete_chunk_structure c2St c2Chunk c2StAfter (by decide) (by decide)
    (by decide) (by decide) (by decide) (by decide)

def c5St : WAVSt :=
  ⟨List.replicate 1000 5, 8192, none, true, List.replicate 7500 9, 7500, 7500,
    1000, 7496⟩

lemma c5_readFull :
    readFull ((completeReadSize c5St.targetSize c5St.header.length
        ((c5St.dataSize : Int) - ((c5St.bytesRead : Int) - (c5St.dataStart : Int)))).toNat)
      c5St.stream = .ok (List.replicate 692 5) (List.replicate 308 5) := by
  rw [show c5St.header.length = 7500 from by
    rw [show c5St.header = List.replicate 7500 9 from rfl, List.length_replicate]]
  rw [show ((c5St.dataSize : Int) - ((c5St.bytesRead : Int) - (c5St.dataStart : Int)))
    = (1000 : Int) from by decide]
  rw [show c5St.targetSize = 8192 from rfl]
  rw [show (completeReadSize 8192 7500 1000).toNat = 692 from by decide]
  rw [show c5St.stream = List.replicate 1000 5 from rfl]
  unfold readFull
  rw [if_pos (by rw [List.length_replicate]; omega)]
  rw [List.take_replicate, List.drop_replicate]
  rw [show min 692 1000 = 692 from by omega]

lemma c5_next : wavNext c5St =
    (⟨createCompleteWAVFile (List.replicate 7500 9) 7496 (List.replicate 692 5),
        none⟩,
      { c5St with
          stream := List.replicate 308 5
          bytesRead := c5St.bytesRead + (List.replicate 692 5).length }) := by
  unfold wavNext
  rw [show c5St.err = none from rfl]
  simp only [show c5St.headerSent = true from rfl, if_true]
  unfold wavNextBody
  rw [if_neg (by decide)]
  simp only [c5_readFull]
  rfl

/-- C5 counterexample: with target 8192, a 7500-byte header and 1000
declared audio bytes remaining, the code requests 692 audio bytes and the
pull emits a chunk of 7500 + 692 bytes, not the claimed
min(max(targetSize - headerLength, 1024), remaining) = 1000 audio bytes. -/
theorem c5_counterexample :
    completeReadSize 8192 7500 1000 = 692 ∧
      min (max ((8192 : Int) - 7500) 1024) 1000 = 1000 ∧
      ∃ c st', wavNext c5St = (⟨some c, none⟩, st') ∧ c.length = 7500 + 692 := by
  refine ⟨by decide, by decide, ?_⟩
  have hcc := createCompleteWAVFile_eq (List.replicate 7500 9) (List.replicate 692 5) 7496
    (by rw [List.length_replicate]) (by rw [List.length_replicate]; omega)
    (by intro h; have h2 := congrArg List.length h
        rw [List.length_replicate] at h2; exact absurd h2 (by decide))
  have hnext := c5_next
  rw [hcc] at hnext
  refine ⟨_, _, hnext, ?_⟩
  rw [builtChunk_length (List.replicate 7500 9) (List.replicate 692 5) _ 7496
    (by rw [List.length_replicate]) (writeUint32LEI_length _)
    (by rw [List.length_replicate]; omega)]
  rw [List.length_replicate, List.length_replicate]

/-- C5 amended: the requested slice size is targetSize - headerLength when
that difference is positive, and the 1 KiB floor only when it is zero or
negative; the result is then capped to the remaining audio bytes. -/
theorem c5_read_size_amended (t h : Nat) (a : Int) :
    completeReadSize t h a =
      min (if (t : Int) - (h : Int) ≤ 0 then (minChunkSize : Int)
        else (t : Int) - (h : Int)) a := by
  unfold completeReadSize
  simp only [minChunkSize]
  split_ifs <;> omega

/-- C10: when the reader is exhausted (zero bytes delivered) while declared
audio remains, the pull returns neither a chunk nor an error, and only the
following pull reports end-of-stream. -/
theorem c10_nil_nil_then_eof (st : WAVSt)
    (herr : st.err = none) (hsent : st.headerSent = true)
    (hstream : st.stream = [])
    (hleft : 0 < (st.dataSize : Int) - ((st.bytesRead : Int) - (st.dataStart : Int))) :
    (wavNext st).1 = ⟨none, none⟩ ∧
      (wavNext (wavNext st).2).1 = ⟨none, some WErr.eof⟩ := by
  have hpos := completeReadSize_pos st.targetSize st.header.length _ hleft
  have hrf : readFull ((completeReadSize st.targetSize st.header.length
      ((st.dataSize : Int) - ((st.bytesRead : Int) - (st.dataStart : Int)))).toNat)
      st.stream = .eof := by
    rw [hstream]
    unfold readFull
    rw [if_neg (by simp; omega), if_pos (by simp)]
  have h1 : wavNext st = (⟨none, none⟩, { st with err := some WErr.eof }) := by
    unfold wavNext
    rw [herr]
    simp only [hsent, if_true]
    unfold wavNextBody
    rw [if_neg (by omega)]
    simp only [hrf, createCompleteWAVFile_nil, hsent]
  refine ⟨by rw [h1], ?_⟩
  rw [h1]
  unfold wavNext
  rfl

def c10St : WAVSt := ⟨[], 8192, none, true, List.replicate 44 3, 44, 44, 100, 40⟩

/-- C10 witness: the theorem applied to a concrete exhausted-reader state
with 100 declared audio bytes remaining. -/
theorem c10_witness :
    (wavNext c10St).1 = ⟨none, none⟩ ∧
      (wavNext (wavNext c10St).2).1 = ⟨none, some WErr.eof⟩ :=
  c10_nil_nil_then_eof c10St (by decide) (by decide) (by decide) (by decide)

def c6Input : List Nat :=
  riffID ++ [0, 0, 0, 0] ++ waveID ++ ([0x4c, 0x49, 0x53, 0x54] ++ writeUint32LE 1048576)

/-- C6 counterexample: a declared non-data chunk size of exactly 1 MB
(1048576) does not trigger the resource-limit error, because the source
guard is strict; here the parser instead reads on and fails with EOF. -/
theorem c6_counterexample :
    parseWAVHeader c6Input = ParseRes.err WErr.eof ∧
      ParseRes.err WErr.eof ≠ ParseRes.err WErr.chunkTooLarge := by
  decide

/-- C6 amended: a declared non-data chunk size strictly above the 1 MiB
bound is rejected with the chunk-size resource-limit error before its data
is read, and a header accumulation above the 8 MiB cap is rejected with the
header resource-limit error. -/
theorem c6_limit_amended :
    (∀ rsz cid sz rest : List Nat,
      rsz.length = 4 → cid.length = 4 → sz.length = 4 → cid ≠ dataID →
      maxChunkSize < readUint32LE sz →
      parseWAVHeader ((riffID ++ rsz ++ waveID) ++ ((cid ++ sz) ++ rest)) =
        ParseRes.err WErr.chunkTooLarge) ∧
    (∀ (fuel : Nat) (input hdr : List Nat), maxHeaderSize < hdr.length →
      parseChunksF (fuel + 1) input hdr = ParseRes.err WErr.headerTooLarge) := by
  constructor
  · intro rsz cid sz rest hr hcid hsz hcdata hbig
    have hpre : (riffID ++ rsz ++ waveID).length = 12 := by simp [riffID, waveID, hr]
    have hcs : (cid ++ sz).length = 8 := by simp [hcid, hsz]
    have h12 : readFull 12 ((riffID ++ rsz ++ waveID) ++ ((cid ++ sz) ++ rest)) =
        .ok (riffID ++ rsz ++ waveID) ((cid ++ sz) ++ rest) := by
      unfold readFull
      rw [if_pos (by rw [List.length_append, hpre]; omega)]
      rw [List.take_left' hpre, List.drop_left' hpre]
    have hr4 : (riffID ++ (rsz ++ waveID)).take 4 = riffID := by
      rw [List.take_append_of_le_length (by simp [riffID])]
      exact List.take_of_length_le (by simp [riffID])
    have hw4 : ((riffID ++ (rsz ++ waveID)).drop 8).take 4 = waveID := by
      rw [← List.append_assoc]
      have h8 : (riffID ++ rsz).length = 8 := by simp [riffID, hr]
      rw [List.drop_left' h8]
      exact List.take_of_length_le (by simp [waveID])
    have h8' : readFull 8 ((cid ++ sz) ++ rest) = .ok (cid ++ sz) rest := by
      unfold readFull
      rw [if_pos (by rw [List.length_append, hcs]; omega)]
      rw [List.take_left' hcs, List.drop_left' hcs]
    have hc4 : (cid ++ sz).take 4 = cid := by
      rw [List.take_append_of_le_length (by simp [hcid])]
      exact List.take_of_length_le (by simp [hcid])
    have hsz4 : (cid ++ sz).drop 4 = sz := List.drop_left' hcid
    unfold parseWAVHeader
    rw [h12]
    simp only []
    rw [if_neg (by simp [hr4]), if_neg (by simp [hw4])]
    simp only [parseChunksF]
    rw [if_neg (by rw [hpre]; decide), h8']
    simp only []
    rw [if_neg (by rw [hc4]; exact hcdata), hsz4, if_pos hbig]
  · intro fuel input hdr h
    simp [parseChunksF, h]

/-- C6 witness: a declared chunk size of 1 MiB + 1 is rejected with the
chunk-size limit error, and an over-cap accumulated header is rejected with
the header limit error. -/
theorem c6_witness :
    parseWAVHeader ((riffID ++ [0, 0, 0, 0] ++ waveID) ++
        (([0x4c, 0x49, 0x53, 0x54] ++ writeUint32LE 1048577) ++ [])) =
      ParseRes.err WErr.chunkTooLarge ∧
    parseChunksF (0 + 1) [] (List.replicate 8388609 0) =
      ParseRes.err WErr.headerTooLarge := by
  constructor
  · exact c6_limit_amended.1 [0, 0, 0, 0] [0x4c, 0x49, 0x53, 0x54]
      (writeUint32LE 1048577) [] (by decide) (by decide) (by decide) (by decide)
      (by decide)
  · exact c6_limit_amended.2 0 [] (List.replicate 8388609 0)
      (by rw [List.length_replicate]; decide)

/-! ## Terminal latching for the WAV chunker -/

lemma wavNextBody_fields (st : WAVSt) :
    (wavNextBody st).2.headerSent = st.headerSent ∧
      (wavNextBody st).2.header = st.header := by
  simp only [wavNextBody]
  constructor <;> (split <;> first | rfl | (split <;> rfl))

lemma wavNextBody_terminal (st : WAVSt) (e : WErr) (st' : WAVSt)
    (herr : st.err = none) (hsent : st.headerSent = true)
    (h : wavNextBody st = (⟨none, some e⟩, st')) :
    st'.err = some e ∨
      (e = WErr.eof ∧ st'.err = none ∧ st'.headerSent = true ∧
        (st'.dataSize : Int) - ((st'.bytesRead : Int) - (st'.dataStart : Int)) ≤ 0) := by
  simp only [wavNextBody] at h
  split at h
  · next hal =>
    right
    have he : WErr.eof = e := by
      have := congrArg (fun p => p.1.error) h
      simpa using this
    have h2 : (if st.dataSize % 2 = 1 then
        { st with stream := st.stream.drop 1 } else st) = st' := congrArg Prod.snd h
    have hfields : st'.err = st.err ∧ st'.headerSent = st.headerSent ∧
        st'.dataSize = st.dataSize ∧ st'.bytesRead = st.bytesRead ∧
        st'.dataStart = st.dataStart := by
      rw [← h2]; split <;> exact ⟨rfl, rfl, rfl, rfl, rfl⟩
    obtain ⟨f1, f2, f3, f4, f5⟩ := hfields
    exact ⟨he.symm, by rw [f1, herr], by rw [f2, hsent], by rw [f3, f4, f5]; omega⟩
  · split at h
    · left
      have he : WErr.unexpectedEof = e := by
        have := congrArg (fun p => p.1.error) h
        simpa using this
      have h2 := congrArg Prod.snd h
      simp only at h2
      rw [← h2, ← he]
    · have := congrArg (fun p => p.1.error) h
      rw [createCompleteWAVFile_nil] at this
      simp at this
    · have := congrArg (fun p => p.1.error) h
      simp at this

lemma wavNext_exhausted (st : WAVSt) (herr : st.err = none)
    (hsent : st.headerSent = true)
    (hal : (st.dataSize : Int) - ((st.bytesRead : Int) - (st.dataStart : Int)) ≤ 0) :
    (wavNext st).1 = ⟨none, some WErr.eof⟩ := by
  unfold wavNext
  rw [herr]
  simp only [hsent, if_true]
  simp only [wavNextBody]
  rw [if_pos hal]

lemma wavNext_terminal_step (st : WAVSt) (e : WErr) (st' : WAVSt)
    (h : wavNext st = (⟨none, some e⟩, st')) :
    (wavNext st').1 = ⟨none, some e⟩ := by
  unfold wavNext at h
  cases herr : st.err with
  | some e0 =>
    rw [herr] at h
    have he : e0 = e := by
      have := congrArg (fun p => p.1.error) h
      simpa using this
    have h2 : st = st' := congrArg Prod.snd h
    unfold wavNext
    rw [← h2, herr, he]
  | none =>
    rw [herr] at h
    by_cases hsent : st.headerSent = true
    · rw [if_pos hsent] at h
      rcases wavNextBody_terminal st e st' herr hsent h with hl | ⟨he, f1, f2, f3⟩
      · unfold wavNext
        rw [hl]
      · rw [he]
        exact wavNext_exhausted st' f1 f2 f3
    · rw [if_neg hsent] at h
      cases hp : parseWAVHeader st.stream with
      | err pe =>
        rw [hp] at h
        have he : pe = e := by
          have := congrArg (fun p => p.1.error) h
          simpa using this
        have h2 := congrArg Prod.snd h
        simp only at h2
        unfold wavNext
        rw [← h2]
        simp [he]
      | ok o =>
        rw [hp] at h
        rcases wavNextBody_terminal _ e st' (by simp [herr]) (by simp) h
          with hl | ⟨he, f1, f2, f3⟩
        · unfold wavNext
          rw [hl]
        · rw [he]
          exact wavNext_exhausted st' f1 f2 f3

/-- The output of the (k+1)-th pull starting from a state. -/
def wavRun : Nat → WAVSt → WAVOut × WAVSt
  | 0, st => wavNext st
  | n + 1, st => wavRun n (wavNext st).2

lemma wavNext_terminal_all (k : Nat) :
    ∀ st e st', wavNext st = (⟨none, some e⟩, st') →
      (wavRun k st').1 = ⟨none, some e⟩ := by
  induction k with
  | zero =>
    intro st e st' h
    exact wavNext_terminal_step st e st' h
  | succ n ih =>
    intro st e st' h
    have hstep := wavNext_terminal_step st e st' h
    exact ih st' e (wavNext st').2 (by rw [← hstep])

/-! ## MP3 chunker (mp3chunk.go): sync scan, accumulate loop, Next -/

inductive MErr
  | eof
  | unexpectedEof
  | invalidFrame
deriving DecidableEq

inductive FindRes
  | found (hdr rest : List Nat)
  | err (e : MErr)
deriving DecidableEq

/-- The scan loop of findNextFrame (mp3chunk.go) with fuel.  Each iteration
consumes at least one stream byte, so the fuel-0 branch is unreachable from
findNextFrame, whose fuel exceeds the stream length.  Note the source
shifts its 4-byte window after a failed candidate but then overwrites the
shifted bytes with fresh reads, so scanning resumes after the whole
candidate, as embedded here. -/
def fnfF : Nat → List Nat → FindRes
  | 0, _ => .err .eof
  | _ + 1, [] => .err .eof
  | fuel + 1, b :: rest =>
    if b ≠ 0xff then fnfF fuel rest
    else
      match rest with
      | [] => .err .eof
      | [_] => .err .unexpectedEof
      | [_, _] => .err .unexpectedEof
      | b1 :: b2 :: b3 :: rest2 =>
        if b1 &&& 0xe0 = 0xe0 then
          match frameLength [b, b1, b2, b3] with
          | some _ => .found [b, b1, b2, b3] rest2
          | none => fnfF fuel rest2
        else fnfF fuel rest2

/-- Embedding of findNextFrame (mp3chunk.go). -/
def findNextFrame (s : List Nat) : FindRes :=
  fnfF (s.length + 1) s

inductive MP3LoopRes
  | emit (chunk stream : List Nat)
  | emitErr (chunk stream : List Nat) (e : MErr)
  | fail (e : MErr) (stream : List Nat)
deriving DecidableEq

def MP3LoopRes.chunkOut : MP3LoopRes → Option (List Nat)
  | .emit c _ => some c
  | .emitErr c _ _ => some c
  | .fail _ _ => none

/-- The frame-accumulation loop of MP3Chunker.Next (mp3chunk.go) with fuel;
resLen is the length of the reservoir the chunk started from, used for the
flush-on-error decision.  Every iteration consumes at least the 4 header
bytes, so the fuel-0 branch is unreachable from mp3Next. -/
def mp3LoopF (targetSize resLen : Nat) : Nat → List Nat → List Nat → MP3LoopRes
  | 0, stream, _ => .fail .eof stream
  | fuel + 1, stream, chunk =>
    if targetSize ≤ chunk.length then .emit chunk stream
    else
      match findNextFrame stream with
      | .err e =>
        if resLen < chunk.length then .emitErr chunk [] e else .fail e []
      | .found hdr s1 =>
        match frameLength hdr with
        | none => .fail .invalidFrame s1
        | some flen =>
          match readFull (flen - 4) s1 with
          | .unexpectedEof =>
            if resLen < chunk.length then .emitErr chunk [] .unexpectedEof
            else .fail .unexpectedEof []
          | .eof =>
            if resLen < chunk.length then .emitErr chunk [] .eof
            else .fail .eof []
          | .ok body s2 => mp3LoopF targetSize resLen fuel s2 (chunk ++ (hdr ++ body))

structure MP3Cfg where
  targetSize : Nat
  reservoirCap : Nat
deriving DecidableEq

structure MP3St where
  stream : List Nat
  reservoir : List Nat
  err : Option MErr
deriving DecidableEq

/-- Embedding of NewMP3Chunker (mp3chunk.go): the requested reservoir size
is capped at the 511-byte ISO maximum. -/
def newMP3Cfg (chunkSize reservoirSize : Nat) : MP3Cfg :=
  ⟨chunkSize, if reservoirSize > maxReservoir then maxReservoir else reservoirSize⟩

/-- Embedding of finalize (mp3chunk.go): the retained reservoir is the tail
of the emitted chunk, at most cap bytes. -/
def tailMin (cap : Nat) (chunk : List Nat) : List Nat :=
  if cap < chunk.length then chunk.drop (chunk.length - cap) else chunk

inductive MRes
  | ok (chunk : List Nat)
  | err (e : MErr)
deriving DecidableEq

/-- Embedding of MP3Chunker.Next (mp3chunk.go). -/
def mp3Next (cfg : MP3Cfg) (st : MP3St) : MRes × MP3St :=
  match st.err with
  | some e => (.err e, st)
  | none =>
    match mp3LoopF cfg.targetSize st.reservoir.length (st.stream.length + 1)
        st.stream st.reservoir with
    | .emit chunk s1 => (.ok chunk, ⟨s1, tailMin cfg.reservoirCap chunk, none⟩)
    | .emitErr chunk s1 e => (.ok chunk, ⟨s1, tailMin cfg.reservoirCap chunk, some e⟩)
    | .fail e s1 => (.err e, ⟨s1, st.reservoir, some e⟩)

/-- The output of the (k+1)-th pull of the MP3 chunker. -/
def mp3Run (cfg : MP3Cfg) : Nat → MP3St → MRes × MP3St
  | 0, st => mp3Next cfg st
  | n + 1, st => mp3Run cfg n (mp3Next cfg st).2

/-! ## Raw chunker (DumbChunker, mp3chunk.go) -/

structure DumbSt where
  stream : List Nat
  targetSize : Nat
  err : Option MErr
deriving DecidableEq

/-- Embedding of DumbChunker.Next: a latched error check, then one Read of
up to targetSize bytes; EOF on an empty reader is not latched. -/
def dumbNext (st : DumbSt) : MRes × DumbSt :=
  match st.err with
  | some e => (.err e, st)
  | none =>
    if st.stream.isEmpty then (.err .eof, st)
    else (.ok (st.stream.take st.targetSize),
      { st with stream := st.stream.drop st.targetSize })

def dumbRun : Nat → DumbSt → MRes × DumbSt
  | 0, st => dumbNext st
  | n + 1, st => dumbRun n (dumbNext st).2

/-! ## Symbolic evaluation toolkit for concrete MP3 streams -/

def c3Frame : List Nat := [0xff, 0xfb, 0xe8, 0x00] ++ List.replicate 1436 7

lemma frameLength_c3hdr : frameLength [0xff, 0xfb, 0xe8, 0x00] = some 1440 := by
  decide

lemma c3Frame_length : c3Frame.length = 1440 := by
  rw [c3Frame, List.length_append, List.length_replicate]
  rfl

lemma fnf_skip (fuel b : Nat) (rest : List Nat) (h : b ≠ 0xff) :
    fnfF (fuel + 1) (b :: rest) = fnfF fuel rest := by
  cases rest with
  | nil => simp only [fnfF]; rw [if_pos h]
  | cons x xs =>
    cases xs with
    | nil => simp only [fnfF]; rw [if_pos h]
    | cons y ys =>
      cases ys with
      | nil => simp only [fnfF]; rw [if_pos h]
      | cons z zs => simp only [fnfF]; rw [if_pos h]

lemma fnf_found_c3 (fuel : Nat) (s : List Nat) :
    fnfF (fuel + 1) (c3Frame ++ s) =
      .found [0xff, 0xfb, 0xe8, 0x00] (List.replicate 1436 7 ++ s) := by
  have hcons : c3Frame ++ s =
      0xff :: 0xfb :: 0xe8 :: 0x00 :: (List.replicate 1436 7 ++ s) := rfl
  rw [hcons]
  simp only [fnfF]
  rw [if_neg (by decide), if_pos (by decide), frameLength_c3hdr]

lemma findNextFrame_c3 (s : List Nat) :
    findNextFrame (c3Frame ++ s) =
      .found [0xff, 0xfb, 0xe8, 0x00] (List.replicate 1436 7 ++ s) :=
  fnf_found_c3 _ s

lemma readFull_rep_c3 (s : List Nat) :
    readFull 1436 (List.replicate 1436 7 ++ s) = .ok (List.replicate 1436 7) s := by
  have hlen : (List.replicate 1436 (7 : Nat)).length = 1436 := by
    rw [List.length_replicate]
  unfold readFull
  rw [if_pos (by rw [List.length_append, hlen]; omega)]
  rw [List.take_left' hlen, List.drop_left' hlen]

lemma mp3LoopF_step_c3 (target resLen fuel : Nat) (s chunk : List Nat)
    (hlt : chunk.length < target) :
    mp3LoopF target resLen (fuel + 1) (c3Frame ++ s) chunk =
      mp3LoopF target resLen fuel s (chunk ++ c3Frame) := by
  simp only [mp3LoopF]
  rw [if_neg (by omega), findNextFrame_c3]
  simp only [frameLength_c3hdr]
  rw [show (1440 : Nat) - 4 = 1436 from rfl, readFull_rep_c3]
  congr 1

lemma mp3LoopF_emit (target resLen fuel : Nat) (s chunk : List Nat)
    (hge : target ≤ chunk.length) :
    mp3LoopF target resLen (fuel + 1) s chunk = .emit chunk s := by
  simp only [mp3LoopF]
  rw [if_pos hge]

lemma findNextFrame_nil : findNextFrame [] = .err .eof := rfl

lemma mp3LoopF_eof_flush (target resLen fuel : Nat) (chunk : List Nat)
    (hlt : chunk.length < target) (hres : resLen < chunk.length) :
    mp3LoopF target resLen (fuel + 1) [] chunk = .emitErr chunk [] .eof := by
  simp only [mp3LoopF]
  rw [if_neg (by omega), findNextFrame_nil]
  simp only []
  rw [if_pos hres]

lemma length_flatten_replicate (k : Nat) (x : List Nat) :
    ((List.replicate k x).flatten).length = k * x.length := by
  induction k with
  | zero => simp
  | succ n ih =>
    rw [List.replicate_succ, List.flatten_cons, List.length_append, ih,
      Nat.succ_mul]
    omega

/-! ## General facts about the MP3 scan and accumulate loop -/

set_option maxRecDepth 8000 in
lemma frameLength_bounds : ∀ (hdr : List Nat) (n : Nat),
    frameLength hdr = some n → 24 ≤ n ∧ n ≤ 1441 := by
  intro hdr n h
  rcases hdr with _ | ⟨b0, _ | ⟨b1, _ | ⟨b2, _ | ⟨b3, _ | ⟨b4, rest⟩⟩⟩⟩⟩
  · simp [frameLength] at h
  · simp [frameLength] at h
  · simp [frameLength] at h
  · simp [frameLength] at h
  · rw [frameLength_characterization] at h
    split at h
    · exact absurd h (by simp)
    · next hm =>
      have hn : n = specFrameLength b1 b2 := (Option.some.inj h).symm
      subst hn
      simp only [headerMalformed, not_or] at hm
      obtain ⟨-, -, h3, -, h5, h6, h7, -⟩ := hm
      have hver : (b1 >>> 3) &&& 0x03 ≤ 3 := Nat.and_le_right
      have hbit : (b2 >>> 4) &&& 0x0f ≤ 15 := Nat.and_le_right
      have hsr : (b2 >>> 2) &&& 0x03 ≤ 3 := Nat.and_le_right
      have hpad : (b2 >>> 1) &&& 0x01 ≤ 1 := Nat.and_le_right
      unfold specFrameLength
      generalize hV : (b1 >>> 3) &&& 0x03 = v at h3 hver ⊢
      generalize hI : (b2 >>> 4) &&& 0x0f = i at h5 h6 hbit ⊢
      generalize hJ : (b2 >>> 2) &&& 0x03 = j at h7 hsr ⊢
      generalize hP : (b2 >>> 1) &&& 0x01 = p at hpad ⊢
      clear hV hI hJ hP
      interval_cases v <;> interval_cases i <;> interval_cases j <;>
        interval_cases p <;> first | omega | decide
  · simp [frameLength] at h

lemma fnfF_found_spec : ∀ (fuel : Nat) (s hdr rest : List Nat),
    fnfF fuel s = .found hdr rest →
    hdr.length = 4 ∧ (∃ n, frameLength hdr = some n) ∧ rest.length + 4 ≤ s.length := by
  intro fuel
  induction fuel with
  | zero => intro s hdr rest h; simp [fnfF] at h
  | succ n ih =>
    intro s hdr rest h
    match s with
    | [] => simp [fnfF] at h
    | b :: rest1 =>
      by_cases hb : b ≠ 0xff
      · rw [fnf_skip n b rest1 hb] at h
        obtain ⟨ha, hs, hl⟩ := ih rest1 hdr rest h
        exact ⟨ha, hs, by simp only [List.length_cons]; omega⟩
      · match rest1 with
        | [] => simp [fnfF, hb] at h
        | [x] => simp [fnfF, hb] at h
        | [x, y] => simp [fnfF, hb] at h
        | b1 :: b2 :: b3 :: rest2 =>
          simp only [fnfF] at h
          rw [if_neg (by simpa using hb)] at h
          by_cases hmask : b1 &&& 0xe0 = 0xe0
          · rw [if_pos hmask] at h
            cases hfl : frameLength [b, b1, b2, b3] with
            | some fl =>
              rw [hfl] at h
              simp only at h
              obtain ⟨hh, hr⟩ := FindRes.found.inj h
              subst hh
              subst hr
              exact ⟨rfl, ⟨fl, hfl⟩, by simp only [List.length_cons]; omega⟩
            | none =>
              rw [hfl] at h
              simp only at h
              obtain ⟨ha, hs, hl⟩ := ih _ hdr rest h
              exact ⟨ha, hs, by simp only [List.length_cons]; omega⟩
          · rw [if_neg hmask] at h
            obtain ⟨ha, hs, hl⟩ := ih _ hdr rest h
            exact ⟨ha, hs, by simp only [List.length_cons]; omega⟩

lemma findNextFrame_found_spec (s hdr rest : List Nat)
    (h : findNextFrame s = .found hdr rest) :
    hdr.length = 4 ∧ (∃ n, frameLength hdr = some n) ∧ rest.length + 4 ≤ s.length :=
  fnfF_found_spec _ s hdr rest h

lemma readFull_ok_len (n : Nat) (s b r : List Nat) (h : readFull n s = .ok b r) :
    b.length = n := by
  obtain ⟨hle, hb, -⟩ := (readFull_ok_iff n s b r).mp h
  rw [hb, List.length_take]
  omega

lemma mp3LoopF_spec (target resLen : Nat) : ∀ (fuel : Nat) (s chunk c : List Nat),
    (mp3LoopF target resLen fuel s chunk).chunkOut = some c →
    (∃ frames : List (List Nat), c = chunk ++ frames.flatten ∧
      ∀ f ∈ frames, ∃ n, frameLength (f.take 4) = some n ∧ f.length = n) ∧
    c.length ≤ max chunk.length (target + 1440) := by
  intro fuel
  induction fuel with
  | zero => intro s chunk c h; simp [mp3LoopF, MP3LoopRes.chunkOut] at h
  | succ n ih =>
    intro s chunk c h
    simp only [mp3LoopF] at h
    split at h
    · simp only [MP3LoopRes.chunkOut] at h
      obtain rfl := Option.some.inj h
      exact ⟨⟨[], by simp, by simp⟩, le_max_left _ _⟩
    · next hlt =>
      cases hf : findNextFrame s with
      | err e =>
        rw [hf] at h
        simp only at h
        split at h
        · simp only [MP3LoopRes.chunkOut] at h
          obtain rfl := Option.some.inj h
          exact ⟨⟨[], by simp, by simp⟩, le_max_left _ _⟩
        · simp [MP3LoopRes.chunkOut] at h
      | found hdr s1 =>
        rw [hf] at h
        simp only at h
        cases hfl : frameLength hdr with
        | none =>
          rw [hfl] at h
          simp [MP3LoopRes.chunkOut] at h
        | some flen =>
          rw [hfl] at h
          simp only at h
          cases hrf : readFull (flen - 4) s1 with
          | unexpectedEof =>
            rw [hrf] at h
            simp only at h
            split at h
            · simp only [MP3LoopRes.chunkOut] at h
              obtain rfl := Option.some.inj h
              exact ⟨⟨[], by simp, by simp⟩, le_max_left _ _⟩
            · simp [MP3LoopRes.chunkOut] at h
          | eof =>
            rw [hrf] at h
            simp only at h
            split at h
            · simp only [MP3LoopRes.chunkOut] at h
              obtain rfl := Option.some.inj h
              exact ⟨⟨[], by simp, by simp⟩, le_max_left _ _⟩
            · simp [MP3LoopRes.chunkOut] at h
          | ok body s2 =>
            rw [hrf] at h
            simp only at h
            obtain ⟨⟨frames, hc, hmem⟩, hlen⟩ := ih s2 (chunk ++ (hdr ++ body)) c h
            obtain ⟨hh4, -, -⟩ := findNextFrame_found_spec s hdr s1 hf
            have hbl : body.length = flen - 4 := readFull_ok_len _ _ _ _ hrf
            have hfb := frameLength_bounds hdr flen hfl
            refine ⟨⟨(hdr ++ body) :: frames, ?_, ?_⟩, ?_⟩
            · rw [hc, List.flatten_cons]
              simp [List.append_assoc]
            · intro f hfm
              rcases List.mem_cons.mp hfm with hfe | hft
              · subst hfe
                refine ⟨flen, ?_, ?_⟩
                · rw [List.take_append_of_le_length (by omega),
                    List.take_of_length_le (by omega)]
                  exact hfl
                · rw [List.length_append, hh4, hbl]
                  omega
              · exact hmem f hft
            · have h1 : (chunk ++ (hdr ++ body)).length ≤ target + 1440 := by
                simp only [List.length_append, hh4, hbl]
                omega
              have h2 := hlen
              have h3 : max (chunk ++ (hdr ++ body)).length (target + 1440) =
                  target + 1440 := by omega
              rw [h3] at h2
              exact le_trans h2 (le_max_right _ _)

lemma tailMin_length_le (cap : Nat) (c : List Nat) : (tailMin cap c).length ≤ cap := by
  unfold tailMin
  split
  · rw [List.length_drop]
    omega
  · omega

lemma tailMin_eq_drop (cap : Nat) (c : List Nat) :
    tailMin cap c = c.drop (c.length - min cap c.length) := by
  unfold tailMin
  split
  · next hlt =>
    rw [Nat.min_eq_left (le_of_lt hlt)]
  · next hge =>
    rw [Nat.min_eq_right (by omega)]
    simp

lemma mp3Next_ok_spec (cfg : MP3Cfg) (st : MP3St) (c : List Nat) (st' : MP3St)
    (h : mp3Next cfg st = (.ok c, st')) :
    st.err = none ∧
    (∃ frames : List (List Nat), c = st.reservoir ++ frames.flatten ∧
      ∀ f ∈ frames, ∃ n, frameLength (f.take 4) = some n ∧ f.length = n) ∧
    st'.reservoir = tailMin cfg.reservoirCap c ∧
    c.length ≤ max st.reservoir.length (cfg.targetSize + 1440) := by
  unfold mp3Next at h
  cases herr : st.err with
  | some e =>
    rw [herr] at h
    exact absurd (congrArg Prod.fst h) (by simp)
  | none =>
    rw [herr] at h
    refine ⟨rfl, ?_⟩
    cases hloop : mp3LoopF cfg.targetSize st.reservoir.length (st.stream.length + 1)
        st.stream st.reservoir with
    | emit chunk s1 =>
      rw [hloop] at h
      simp only at h
      have hc : chunk = c := by
        have := congrArg Prod.fst h
        simpa using this
      subst hc
      have hst := congrArg Prod.snd h
      simp only at hst
      obtain ⟨hframes, hlen⟩ := mp3LoopF_spec cfg.targetSize st.reservoir.length
        (st.stream.length + 1) st.stream st.reservoir chunk
        (by rw [hloop]; rfl)
      exact ⟨hframes, by rw [← hst], hlen⟩
    | emitErr chunk s1 e =>
      rw [hloop] at h
      simp only at h
      have hc : chunk = c := by
        have := congrArg Prod.fst h
        simpa using this
      subst hc
      have hst := congrArg Prod.snd h
      simp only at hst
      obtain ⟨hframes, hlen⟩ := mp3LoopF_spec cfg.targetSize st.reservoir.length
        (st.stream.length + 1) st.stream st.reservoir chunk
        (by rw [hloop]; rfl)
      exact ⟨hframes, by rw [← hst], hlen⟩
    | fail e s1 =>
      rw [hloop] at h
      exact absurd (congrArg Prod.fst h) (by simp)

lemma mp3Next_terminal_step (cfg : MP3Cfg) (st : MP3St) (e : MErr) (st' : MP3St)
    (h : mp3Next cfg st = (.err e, st')) :
    mp3Next cfg st' = (.err e, st') := by
  unfold mp3Next at h
  cases herr : st.err with
  | some e0 =>
    rw [herr] at h
    have he : e0 = e := by
      have := congrArg Prod.fst h
      simpa using this
    have hst : st = st' := congrArg Prod.snd h
    unfold mp3Next
    rw [← hst, herr, he]
  | none =>
    rw [herr] at h
    cases hloop : mp3LoopF cfg.targetSize st.reservoir.length (st.stream.length + 1)
        st.stream st.reservoir with
    | emit chunk s1 =>
      rw [hloop] at h
      exact absurd (congrArg Prod.fst h) (by simp)
    | emitErr chunk s1 e1 =>
      rw [hloop] at h
      exact absurd (congrArg Prod.fst h) (by simp)
    | fail e1 s1 =>
      rw [hloop] at h
      simp only at h
      have he : e1 = e := by
        have := congrArg Prod.fst h
        simpa using this
      have hst := congrArg Prod.snd h
      simp only at hst
      unfold mp3Next
      rw [← hst]
      simp only [he]

lemma mp3Next_terminal_all (cfg : MP3Cfg) (k : Nat) :
    ∀ (st : MP3St) (e : MErr) (st' : MP3St), mp3Next cfg st = (.err e, st') →
      (mp3Run cfg k st').1 = .err e := by
  induction k with
  | zero =>
    intro st e st' h
    have := mp3Next_terminal_step cfg st e st' h
    simp only [mp3Run, this]
  | succ n ih =>
    intro st e st' h
    have hstep := mp3Next_terminal_step cfg st e st' h
    exact ih st' e (mp3Next cfg st').2 (by rw [hstep])

lemma dumbNext_terminal_step (st : DumbSt) (e : MErr) (st' : DumbSt)
    (h : dumbNext st = (.err e, st')) :
    dumbNext st' = (.err e, st') := by
  unfold dumbNext at h
  cases herr : st.err with
  | some e0 =>
    rw [herr] at h
    have he : e0 = e := by
      have := congrArg Prod.fst h
      simpa using this
    have hst : st = st' := congrArg Prod.snd h
    unfold dumbNext
    rw [← hst, herr, he]
  | none =>
    rw [herr] at h
    by_cases hemp : st.stream.isEmpty
    · rw [if_pos hemp] at h
      have he : MErr.eof = e := by
        have := congrArg Prod.fst h
        simpa using this
      have hst : st = st' := congrArg Prod.snd h
      unfold dumbNext
      rw [← hst, herr, if_pos hemp, he]
    · rw [if_neg hemp] at h
      exact absurd (congrArg Prod.fst h) (by simp)

lemma dumbNext_terminal_all (k : Nat) :
    ∀ (st : DumbSt) (e : MErr) (st' : DumbSt), dumbNext st = (.err e, st') →
      (dumbRun k st').1 = .err e := by
  induction k with
  | zero =>
    intro st e st' h
    have := dumbNext_terminal_step st e st' h
    simp only [dumbRun, this]
  | succ n ih =>
    intro st e st' h
    have hstep := dumbNext_terminal_step st e st' h
    exact ih st' e (dumbNext st').2 (by rw [hstep])

lemma flatten_replicate_snoc (k : Nat) (x : List Nat) :
    (List.replicate k x).flatten ++ x = (List.replicate (k + 1) x).flatten := by
  induction k with
  | zero => simp
  | succ n ih =>
    rw [List.replicate_succ, List.flatten_cons, List.append_assoc, ih,
      ← List.flatten_cons, ← List.replicate_succ]

lemma mp3LoopF_step_flat (target resLen fuel j : Nat) (s : List Nat)
    (hlt : ((List.replicate j c3Frame).flatten).length < target) :
    mp3LoopF target resLen (fuel + 1) (c3Frame ++ s) ((List.replicate j c3Frame).flatten) =
      mp3LoopF target resLen fuel s ((List.replicate (j + 1) c3Frame).flatten) := by
  rw [mp3LoopF_step_c3 target resLen fuel s _ hlt, flatten_replicate_snoc]

def c3Stream : List Nat := (List.replicate 7 c3Frame).flatten

def c3Chunk1 : List Nat := (List.replicate 6 c3Frame).flatten

def c3Chunk2 : List Nat := List.replicate 511 7 ++ c3Frame

lemma c3Chunk1_length : c3Chunk1.length = 8640 := by
  rw [show c3Chunk1 = (List.replicate 6 c3Frame).flatten from rfl,
    length_flatten_replicate, c3Frame_length]

lemma c3Chunk2_length : c3Chunk2.length = 1951 := by
  rw [show c3Chunk2 = List.replicate 511 7 ++ c3Frame from rfl,
    List.length_append, List.length_replicate, c3Frame_length]

lemma hflat_lt (j : Nat) (hj : j * 1440 < 8192) :
    ((List.replicate j c3Frame).flatten).length < 8192 := by
  rw [length_flatten_replicate, c3Frame_length]
  omega

lemma c3_loop1 : mp3LoopF 8192 0 (c3Stream.length + 1) c3Stream [] =
    .emit c3Chunk1 c3Frame := by
  have hlen7 : c3Stream.length = 10080 := by
    rw [show c3Stream = (List.replicate 7 c3Frame).flatten from rfl,
      length_flatten_replicate, c3Frame_length]
  rw [hlen7]
  rw [show c3Stream = c3Frame ++ (List.replicate 6 c3Frame).flatten from rfl]
  rw [show ([] : List Nat) = (List.replicate 0 c3Frame).flatten from rfl]
  rw [mp3LoopF_step_flat 8192 0 10080 0 _ (hflat_lt 0 (by omega))]
  rw [show (10080 : Nat) = 10079 + 1 from rfl]
  rw [show (List.replicate 6 c3Frame).flatten =
    c3Frame ++ (List.replicate 5 c3Frame).flatten from rfl]
  rw [mp3LoopF_step_flat 8192 0 10079 1 _ (hflat_lt 1 (by omega))]
  rw [show (10079 : Nat) = 10078 + 1 from rfl]
  rw [show (List.replicate 5 c3Frame).flatten =
    c3Frame ++ (List.replicate 4 c3Frame).flatten from rfl]
  rw [mp3LoopF_step_flat 8192 0 10078 2 _ (hflat_lt 2 (by omega))]
  rw [show (10078 : Nat) = 10077 + 1 from rfl]
  rw [show (List.replicate 4 c3Frame).flatten =
    c3Frame ++ (List.replicate 3 c3Frame).flatten from rfl]
  rw [mp3LoopF_step_flat 8192 0 10077 3 _ (hflat_lt 3 (by omega))]
  rw [show (10077 : Nat) = 10076 + 1 from rfl]
  rw [show (List.replicate 3 c3Frame).flatten =
    c3Frame ++ (List.replicate 2 c3Frame).flatten from rfl]
  rw [mp3LoopF_step_flat 8192 0 10076 4 _ (hflat_lt 4 (by omega))]
  rw [show (10076 : Nat) = 10075 + 1 from rfl]
  rw [show (List.replicate 2 c3Frame).flatten =
    c3Frame ++ (List.replicate 1 c3Frame).flatten from rfl]
  rw [mp3LoopF_step_flat 8192 0 10075 5 _ (hflat_lt 5 (by omega))]
  rw [show (10075 : Nat) = 10074 + 1 from rfl]
  rw [mp3LoopF_emit 8192 0 10074 _ _
    (by rw [length_flatten_replicate, c3Frame_length]; omega)]
  rw [show (List.replicate 1 c3Frame).flatten = c3Frame ++ [] from rfl,
    List.append_nil]
  rfl

lemma c3_loop2 : mp3LoopF 8192 511 (c3Frame.length + 1) c3Frame (List.replicate 511 7) =
    .emitErr c3Chunk2 [] .eof := by
  rw [c3Frame_length]
  conv_lhs => rw [show c3Frame = c3Frame ++ [] from (List.append_nil c3Frame).symm]
  rw [mp3LoopF_step_c3 8192 511 1440 [] (List.replicate 511 7)
    (by rw [List.length_replicate]; omega)]
  rw [show (1440 : Nat) = 1439 + 1 from rfl]
  rw [mp3LoopF_eof_flush 8192 511 1439 _
    (by rw [List.length_append, List.length_replicate, c3Frame_length]; omega)
    (by rw [List.length_append, List.length_replicate, c3Frame_length]; omega)]
  rfl

lemma tail_c3Chunk1 : tailMin 511 c3Chunk1 = List.replicate 511 7 := by
  unfold tailMin
  rw [if_pos (by rw [c3Chunk1_length]; omega), c3Chunk1_length]
  rw [show (8640 : Nat) - 511 = 8129 from rfl]
  rw [show c3Chunk1 = (List.replicate 5 c3Frame).flatten ++ c3Frame from
    (flatten_replicate_snoc 5 c3Frame).symm]
  rw [List.drop_append_eq_append_drop]
  have hd1 : ((List.replicate 5 c3Frame).flatten).drop 8129 = [] := by
    rw [List.drop_eq_nil_iff, length_flatten_replicate, c3Frame_length]
    omega
  rw [hd1, List.nil_append, length_flatten_replicate, c3Frame_length]
  rw [show (8129 : Nat) - 5 * 1440 = 929 from rfl]
  rw [show c3Frame = [0xff, 0xfb, 0xe8, 0x00] ++ List.replicate 1436 7 from rfl]
  rw [List.drop_append_eq_append_drop]
  rw [show (([0xff, 0xfb, 0xe8, 0x00] : List Nat)).drop 929 = [] from rfl,
    List.nil_append]
  rw [show (929 : Nat) - ([0xff, 0xfb, 0xe8, 0x00] : List Nat).length = 925 from rfl]
  rw [List.drop_replicate]

lemma c3_out1 : mp3Next (newMP3Cfg 8192 2048) ⟨c3Stream, [], none⟩ =
    (.ok c3Chunk1, ⟨c3Frame, List.replicate 511 7, none⟩) := by
  rw [show newMP3Cfg 8192 2048 = ⟨8192, 511⟩ from rfl]
  simp only [mp3Next, List.length_nil]
  rw [c3_loop1]
  simp only [tail_c3Chunk1]

lemma c3_out2 : mp3Next (newMP3Cfg 8192 2048) ⟨c3Frame, List.replicate 511 7, none⟩ =
    (.ok c3Chunk2, ⟨[], tailMin 511 c3Chunk2, some MErr.eof⟩) := by
  rw [show newMP3Cfg 8192 2048 = ⟨8192, 511⟩ from rfl]
  simp only [mp3Next, List.length_replicate]
  rw [c3_loop2]

/-- C3 counterexample: with requested target 8192 and reservoir 2048 over an
input of seven valid frames, the second chunk does not begin with the
trailing min(2048, previous length) bytes of the first chunk, because the
constructor caps the reservoir at 511 bytes. -/
theorem c3_counterexample :
    mp3Next (newMP3Cfg 8192 2048) ⟨c3Stream, [], none⟩ =
      (.ok c3Chunk1, ⟨c3Frame, List.replicate 511 7, none⟩) ∧
    mp3Next (newMP3Cfg 8192 2048) ⟨c3Frame, List.replicate 511 7, none⟩ =
      (.ok c3Chunk2, ⟨[], tailMin 511 c3Chunk2, some MErr.eof⟩) ∧
    ¬ (c3Chunk1.drop (c3Chunk1.length - min 2048 c3Chunk1.length) <+: c3Chunk2) := by
  refine ⟨c3_out1, c3_out2, ?_⟩
  intro hpre
  have hle := hpre.length_le
  rw [List.length_drop, c3Chunk1_length, c3Chunk2_length] at hle
  omega

/-- C3 amended: under target 8192 with requested reservoir 2048, the
effective capacity is 511, every chunk after the first begins with the
trailing min(511, previous length) bytes of the previous chunk, and each
chunk is at most 8192+2048 bytes. -/
theorem c3_reservoir_amended (st0 : MP3St) (c1 c2 : List Nat) (st1 st2 : MP3St)
    (hres : st0.reservoir.length ≤ 511)
    (h1 : mp3Next (newMP3Cfg 8192 2048) st0 = (.ok c1, st1))
    (h2 : mp3Next (newMP3Cfg 8192 2048) st1 = (.ok c2, st2)) :
    (newMP3Cfg 8192 2048).reservoirCap = 511 ∧
    st1.reservoir = c1.drop (c1.length - min 511 c1.length) ∧
    c1.drop (c1.length - min 511 c1.length) <+: c2 ∧
    c1.length ≤ 8192 + 2048 ∧ c2.length ≤ 8192 + 2048 := by
  have hcap : (newMP3Cfg 8192 2048).reservoirCap = 511 := rfl
  obtain ⟨-, ⟨f1, hc1, -⟩, r1, l1⟩ := mp3Next_ok_spec _ _ _ _ h1
  obtain ⟨-, ⟨f2, hc2, -⟩, r2, l2⟩ := mp3Next_ok_spec _ _ _ _ h2
  rw [hcap] at r1
  have hrlen : st1.reservoir.length ≤ 511 := by
    rw [r1]; exact tailMin_length_le _ _
  have hdrop : st1.reservoir = c1.drop (c1.length - min 511 c1.length) := by
    rw [r1, tailMin_eq_drop]
  have htgt : (newMP3Cfg 8192 2048).targetSize = 8192 := rfl
  refine ⟨hcap, hdrop, ?_, ?_, ?_⟩
  · rw [← hdrop, hc2]
    exact List.prefix_append _ _
  · rw [htgt] at l1
    omega
  · rw [htgt] at l2
    omega

/-- C3 witness: the amended theorem applied to the concrete seven-frame
stream. -/
theorem c3_witness :
    (newMP3Cfg 8192 2048).reservoirCap = 511 ∧
    (⟨c3Frame, List.replicate 511 7, none⟩ : MP3St).reservoir =
      c3Chunk1.drop (c3Chunk1.length - min 511 c3Chunk1.length) ∧
    c3Chunk1.drop (c3Chunk1.length - min 511 c3Chunk1.length) <+: c3Chunk2 ∧
    c3Chunk1.length ≤ 8192 + 2048 ∧ c3Chunk2.length ≤ 8192 + 2048 :=
  c3_reservoir_amended ⟨c3Stream, [], none⟩ c3Chunk1 c3Chunk2
    ⟨c3Frame, List.replicate 511 7, none⟩ ⟨[], tailMin 511 c3Chunk2, some MErr.eof⟩
    (by simp) c3_out1 c3_out2

/-- C4: code evaluation at the failing input.  The stream holds a false
sync candidate (ff ff fb e8) whose bytes 1..3 start a genuinely valid
header (ff fb e8 00, frame length 1440), yet the scanner reports EOF: it
consumed all four candidate bytes instead of resuming one byte after the
candidate start, so the header at offset 1 is never examined. -/
theorem c4_missed_header :
    findNextFrame [0xff, 0xff, 0xfb, 0xe8, 0x00] = .err .eof ∧
      frameLength [0xff, 0xfb, 0xe8, 0x00] = some 1440 := by
  decide

def c7Tail : List Nat := [0xff, 0xfb, 0xe8, 0x00, 7, 7, 7]

lemma mp3LoopF_trunc_flush (target resLen fuel : Nat) (chunk : List Nat)
    (hlt : chunk.length < target) (hres : resLen < chunk.length) :
    mp3LoopF target resLen (fuel + 1) c7Tail chunk =
      .emitErr chunk [] .unexpectedEof := by
  simp only [mp3LoopF]
  rw [if_neg (by omega)]
  rw [show findNextFrame c7Tail =
    FindRes.found [0xff, 0xfb, 0xe8, 0x00] [7, 7, 7] from by decide]
  simp only [frameLength_c3hdr]
  rw [show readFull (1440 - 4) [7, 7, 7] = RFRes.unexpectedEof from by decide]
  simp only []
  rw [if_pos hres]

lemma c7_loop_trunc :
    mp3LoopF 2000 0 ((c3Frame ++ c7Tail).length + 1) (c3Frame ++ c7Tail) [] =
      .emitErr c3Frame [] .unexpectedEof := by
  rw [show (c3Frame ++ c7Tail).length + 1 = 1447 + 1 from by
    rw [List.length_append, c3Frame_length]; rfl]
  rw [mp3LoopF_step_c3 2000 0 1447 c7Tail [] (by simp)]
  rw [List.nil_append]
  rw [show (1447 : Nat) = 1446 + 1 from rfl]
  rw [mp3LoopF_trunc_flush 2000 0 1446 c3Frame (by rw [c3Frame_length]; omega)
    (by rw [c3Frame_length]; omega)]

def c7St : MP3St := ⟨c3Frame ++ c7Tail, [], none⟩

/-- C7 counterexample: end-of-stream mid-frame (a partial body read after a
valid second header) with a full frame already accumulated flushes the
partial chunk successfully, but the immediately following pull returns the
latched unexpected-EOF error, which is not end-of-stream. -/
theorem c7_counterexample :
    (mp3Next ⟨2000, 511⟩ c7St).1 = .ok c3Frame ∧
      (mp3Next ⟨2000, 511⟩ (mp3Next ⟨2000, 511⟩ c7St).2).1 =
        .err .unexpectedEof ∧
      MRes.err MErr.unexpectedEof ≠ MRes.err MErr.eof := by
  have hmain : mp3Next ⟨2000, 511⟩ c7St =
      (.ok c3Frame, ⟨[], tailMin 511 c3Frame, some .unexpectedEof⟩) := by
    unfold mp3Next
    rw [show c7St.err = none from rfl]
    rw [show c7St.stream = c3Frame ++ c7Tail from rfl]
    rw [show c7St.reservoir = ([] : List Nat) from rfl]
    rw [show ([] : List Nat).length = 0 from rfl]
    rw [c7_loop_trunc]
  rw [hmain]
  exact ⟨rfl, rfl, by decide⟩

/-- C7 amended: when frame acquisition ends with a terminal read error and
the chunk has grown beyond the carried-over reservoir, that pull returns the
partial chunk successfully with that error latched, and the immediately
following pull returns the same latched error — end-of-stream when the
stream ended cleanly (a zero-byte read), unexpected EOF on a partial
mid-frame read. -/
theorem c7_flush_then_latched (cfg : MP3Cfg) (st : MP3St) (c s1 : List Nat)
    (e : MErr) (herr : st.err = none)
    (hloop : mp3LoopF cfg.targetSize st.reservoir.length (st.stream.length + 1)
      st.stream st.reservoir = .emitErr c s1 e) :
    (mp3Next cfg st).1 = .ok c ∧
      (mp3Next cfg st).2.err = some e ∧
      mp3Next cfg (mp3Next cfg st).2 = (.err e, (mp3Next cfg st).2) := by
  have hmain : mp3Next cfg st =
      (.ok c, ⟨s1, tailMin cfg.reservoirCap c, some e⟩) := by
    unfold mp3Next
    rw [herr, hloop]
  rw [hmain]
  exact ⟨rfl, rfl, rfl⟩

lemma c7_loop_concrete :
    mp3LoopF 2000 0 (c3Frame.length + 1) c3Frame [] = .emitErr c3Frame [] .eof := by
  rw [c3Frame_length]
  conv_lhs => rw [show c3Frame = c3Frame ++ [] from (List.append_nil c3Frame).symm]
  rw [mp3LoopF_step_c3 2000 0 1440 [] [] (by simp)]
  rw [List.nil_append]
  rw [show (1440 : Nat) = 1439 + 1 from rfl]
  rw [mp3LoopF_eof_flush 2000 0 1439 c3Frame (by rw [c3Frame_length]; omega)
    (by rw [c3Frame_length]; omega)]

/-- C7 witness: a single full frame followed by a clean end-of-stream is
flushed as a successful partial chunk with EOF latched, and the next pull
reports end-of-stream. -/
theorem c7_witness :
    (mp3Next ⟨2000, 511⟩ ⟨c3Frame, [], none⟩).1 = .ok c3Frame ∧
      (mp3Next ⟨2000, 511⟩ ⟨c3Frame, [], none⟩).2.err = some .eof ∧
      mp3Next ⟨2000, 511⟩ (mp3Next ⟨2000, 511⟩ ⟨c3Frame, [], none⟩).2 =
        (.err .eof, (mp3Next ⟨2000, 511⟩ ⟨c3Frame, [], none⟩).2) :=
  c7_flush_then_latched ⟨2000, 511⟩ ⟨c3Frame, [], none⟩ c3Frame [] .eof rfl
    c7_loop_concrete

lemma c9_find : findNextFrame ([1, 2, 3] ++ c3Frame) =
    .found [0xff, 0xfb, 0xe8, 0x00] (List.replicate 1436 7 ++ []) := by
  unfold findNextFrame
  have hlen : ([1, 2, 3] ++ c3Frame).length = 1443 := by
    rw [List.length_append, c3Frame_length]
    rfl
  have h1 : ([1, 2, 3] ++ c3Frame) = 1 :: 2 :: 3 :: (c3Frame ++ []) := by
    rw [List.append_nil]
    rfl
  rw [hlen, h1]
  rw [fnf_skip 1443 1 _ (by decide)]
  rw [show (1443 : Nat) = 1442 + 1 from rfl]
  rw [fnf_skip 1442 2 _ (by decide)]
  rw [show (1442 : Nat) = 1441 + 1 from rfl]
  rw [fnf_skip 1441 3 _ (by decide)]
  rw [show (1441 : Nat) = 1440 + 1 from rfl]
  exact fnf_found_c3 1440 []

lemma mp3LoopF_step_junk (target resLen fuel : Nat) (chunk : List Nat)
    (hlt : chunk.length < target) :
    mp3LoopF target resLen (fuel + 1) ([1, 2, 3] ++ c3Frame) chunk =
      mp3LoopF target resLen fuel [] (chunk ++ c3Frame) := by
  simp only [mp3LoopF]
  rw [if_neg (by omega), c9_find]
  simp only [frameLength_c3hdr]
  rw [show (1440 : Nat) - 4 = 1436 from rfl, readFull_rep_c3]
  congr 1

lemma c9_out : mp3Next ⟨1000, 511⟩ ⟨[1, 2, 3] ++ c3Frame, [], none⟩ =
    (.ok c3Frame, ⟨[], tailMin 511 c3Frame, none⟩) := by
  simp only [mp3Next, List.length_nil]
  have hlen : ([1, 2, 3] ++ c3Frame).length = 1443 := by
    rw [List.length_append, c3Frame_length]
    rfl
  have hloop : mp3LoopF 1000 0 (([1, 2, 3] ++ c3Frame).length + 1)
      ([1, 2, 3] ++ c3Frame) [] = .emit c3Frame [] := by
    rw [hlen]
    rw [mp3LoopF_step_junk 1000 0 1443 [] (by simp)]
    rw [List.nil_append]
    rw [show (1443 : Nat) = 1442 + 1 from rfl]
    rw [mp3LoopF_emit 1000 0 1442 [] c3Frame (by rw [c3Frame_length]; omega)]
  rw [hloop]

/-- C9: every emitted chunk consists of the carried reservoir followed by
validated frames only, so bytes skipped while synchronizing appear in no
chunk; and on a junk-prefixed input the emitted chunk differs from the
consumed stream, so de-overlapped concatenation does not reconstruct the
input. -/
theorem c9_junk_discarded :
    (∀ (cfg : MP3Cfg) (st : MP3St) (c : List Nat) (st' : MP3St),
      mp3Next cfg st = (.ok c, st') →
      ∃ frames : List (List Nat), c = st.reservoir ++ frames.flatten ∧
        ∀ f ∈ frames, ∃ n, frameLength (f.take 4) = some n ∧ f.length = n) ∧
    (mp3Next ⟨1000, 511⟩ ⟨[1, 2, 3] ++ c3Frame, [], none⟩ =
        (.ok c3Frame, ⟨[], tailMin 511 c3Frame, none⟩) ∧
      c3Frame ≠ [1, 2, 3] ++ c3Frame) := by
  refine ⟨?_, c9_out, ?_⟩
  · intro cfg st c st' h
    exact (mp3Next_ok_spec cfg st c st' h).2.1
  · intro he
    have hl := congrArg List.length he
    rw [c3Frame_length, List.length_append, c3Frame_length] at hl
    simp at hl

/-- C9 witness: on the junk-prefixed stream, the emitted chunk is the
empty reservoir plus validated frames. -/
theorem c9_witness :
    ∃ frames : List (List Nat),
      c3Frame = (⟨[1, 2, 3] ++ c3Frame, [], none⟩ : MP3St).reservoir ++
        frames.flatten ∧
      ∀ f ∈ frames, ∃ n, frameLength (f.take 4) = some n ∧ f.length = n :=
  c9_junk_discarded.1 ⟨1000, 511⟩ ⟨[1, 2, 3] ++ c3Frame, [], none⟩ c3Frame
    ⟨[], tailMin 511 c3Frame, none⟩ c9_out

/-- C8: once a pull returns a terminal condition (a latched error or EOF),
every subsequent pull of the MP3, WAV or raw chunker returns that same
terminal condition. -/
theorem c8_terminal_latch :
    (∀ (cfg : MP3Cfg) (st : MP3St) (e : MErr) (st' : MP3St),
      mp3Next cfg st = (.err e, st') → ∀ k, (mp3Run cfg k st').1 = .err e) ∧
    (∀ (st : WAVSt) (e : WErr) (st' : WAVSt),
      wavNext st = (⟨none, some e⟩, st') → ∀ k, (wavRun k st').1 = ⟨none, some e⟩) ∧
    (∀ (st : DumbSt) (e : MErr) (st' : DumbSt),
      dumbNext st = (.err e, st') → ∀ k, (dumbRun k st').1 = .err e) := by
  refine ⟨?_, ?_, ?_⟩
  · intro cfg st e st' h k
    exact mp3Next_terminal_all cfg k st e st' h
  · intro st e st' h k
    exact wavNext_terminal_all k st e st' h
  · intro st e st' h k
    exact dumbNext_terminal_all k st e st' h

/-- C8 witness: after a first terminal pull, the second pull of each
chunker repeats the same terminal condition. -/
theorem c8_witness :
    (mp3Run ⟨8192, 511⟩ 1 ⟨[], [], some MErr.eof⟩).1 = .err .eof ∧
    (wavRun 1 ⟨[], 8192, some WErr.eof, false, [], 0, 0, 0, 0⟩).1 =
      ⟨none, some WErr.eof⟩ ∧
    (dumbRun 1 ⟨[], 4, none⟩).1 = .err .eof :=
  ⟨c8_terminal_latch.1 ⟨8192, 511⟩ ⟨[], [], none⟩ .eof ⟨[], [], some .eof⟩
      (by decide) 1,
   c8_terminal_latch.2.1 ⟨[], 8192, none, false, [], 0, 0, 0, 0⟩ .eof
      ⟨[], 8192, some WErr.eof, false, [], 0, 0, 0, 0⟩ (by decide) 1,
   c8_terminal_latch.2.2 ⟨[], 4, none⟩ .eof ⟨[], 4, none⟩ (by decide) 1⟩
